import Mathlib

/-!
Verification of the UTS log-aggregator core (src/src/*.py) by shallow
embedding.  The Python components are translated into executable Lean
definitions:

* `Event`, `ProcessedEvent`   — src/src/models.py
* `DedupStore` and its operations `is_duplicate`, `store_event`,
  `get_stats`, `clear_all`, plus `DedupStore.init` modelling `__init__`
  opening a (possibly non-empty) persisted SQLite file — src/src/dedup_store.py.
  The `processed_events` table with its `UNIQUE(topic, event_id)` constraint
  is modelled as a list of rows in insertion order; `INSERT OR IGNORE`
  inserts exactly when no row with the same `(topic, event_id)` is present.
* the `Consumer` batch loop and `stop` drain — src/src/consumer.py
* the per-event body of the `/publish` endpoint — src/src/api.py
* the bounded `asyncio.Queue` used as intake queue — src/src/main.py,
  src/src/config.py

`datetime.utcnow()` is threaded as an explicit `processed_at : String`
argument; it is stored verbatim and never inspected by any operation a
claim is about.  The JSON payload is modelled by its `json.dumps`
serialisation, a `String`, since the store never inspects its content.
-/

/-- Event model from src/src/models.py (`class Event`).  Field validation
(non-empty strings, ISO-8601 timestamp) happens at the Pydantic boundary and
is not needed by any store operation, so fields are plain strings here. -/
structure Event where
  topic : String
  event_id : String
  timestamp : String
  source : String
  payload : String
  deriving DecidableEq, Repr

/-- `Event.get_dedup_key` from src/src/models.py. -/
def Event.get_dedup_key (e : Event) : String :=
  e.topic ++ ":" ++ e.event_id

/-- A row of the `processed_events` table (`class ProcessedEvent`):
an event plus `processed_at`. -/
structure ProcessedEvent where
  topic : String
  event_id : String
  timestamp : String
  source : String
  payload : String
  processed_at : String
  deriving DecidableEq, Repr

/-- The `DedupStore` object state: `db` is the persisted `processed_events`
table in insertion order; the remaining fields are the in-memory counters
set up in `DedupStore.__init__`. -/
structure DedupStore where
  db : List ProcessedEvent
  received_count : Nat
  unique_count : Nat
  duplicate_count : Nat
  topics : List String
  deriving DecidableEq, Repr

/-- `DedupStore.__init__(db_path)`: the counters start at 0 and the topics
set empty; `_init_db` runs `CREATE TABLE IF NOT EXISTS`, so rows already
persisted at `db_path` (parameter `persisted`) survive untouched. -/
def DedupStore.init (persisted : List ProcessedEvent) : DedupStore :=
  { db := persisted
    received_count := 0
    unique_count := 0
    duplicate_count := 0
    topics := [] }

/-- A store opened on an empty location. -/
def freshStore : DedupStore := DedupStore.init []

/-- The SQL existence query
`SELECT EXISTS(SELECT 1 FROM processed_events WHERE topic = ? AND event_id = ?)`. -/
def keyPresent (db : List ProcessedEvent) (topic event_id : String) : Bool :=
  db.any fun r => r.topic == topic && r.event_id == event_id

/-- Number of rows of `db` with the given `(topic, event_id)` key. -/
def countKey (db : List ProcessedEvent) (topic event_id : String) : Nat :=
  (db.filter fun r => r.topic == topic && r.event_id == event_id).length

/-- `self.topics.add(event.topic)`: Python set insertion, modelled as a
duplicate-free list. -/
def addTopic (ts : List String) (t : String) : List String :=
  if ts.contains t then ts else ts ++ [t]

/-- `DedupStore.is_duplicate(event)`: runs the existence query for the
event's `(topic, event_id)`; when the row exists it increments
`self.duplicate_count` and returns `True`, otherwise returns `False`
with the state untouched. -/
def DedupStore.is_duplicate (s : DedupStore) (e : Event) : Bool × DedupStore :=
  if keyPresent s.db e.topic e.event_id then
    (true, { s with duplicate_count := s.duplicate_count + 1 })
  else
    (false, s)

/-- `DedupStore.store_event(event)` happy path (no storage exception):
increments `received_count` and records the topic, then runs
`INSERT OR IGNORE`; `cursor.rowcount > 0` exactly when no row with the
same `(topic, event_id)` existed, in which case the row is appended and
`unique_count` incremented (return `True`); otherwise `duplicate_count`
is incremented (return `False`). -/
def DedupStore.store_event (s : DedupStore) (e : Event) (processed_at : String) :
    Bool × DedupStore :=
  let s1 := { s with
    received_count := s.received_count + 1
    topics := addTopic s.topics e.topic }
  if keyPresent s1.db e.topic e.event_id then
    (false, { s1 with duplicate_count := s1.duplicate_count + 1 })
  else
    (true, { s1 with
      db := s1.db ++ [⟨e.topic, e.event_id, e.timestamp, e.source, e.payload, processed_at⟩]
      unique_count := s1.unique_count + 1 })

/-- Behaviour of the storage layer during the `INSERT OR IGNORE` of
`store_event`: normal completion, an `sqlite3.IntegrityError`, or any
other `sqlite3` exception (e.g. `OperationalError` on an I/O failure). -/
inductive SqlOutcome
  | ok
  | integrityError
  | otherError
  deriving DecidableEq, Repr

/-- Exception escaping `store_event` to its caller. -/
inductive PyExc
  | integrityError
  | otherError
  deriving DecidableEq, Repr

/-- `DedupStore.store_event(event)` with the storage layer's behaviour made
explicit.  `received_count` and `topics` are updated before the `try`
block.  `except sqlite3.IntegrityError` increments `duplicate_count` and
returns `False` (the Duplicate verdict).  Any other exception is re-raised
by the `_get_connection` context manager after rolling the transaction
back, so nothing is persisted and no distinct error kind is substituted. -/
def DedupStore.store_event_f (s : DedupStore) (e : Event) (processed_at : String)
    (outcome : SqlOutcome) : Except PyExc Bool × DedupStore :=
  let s1 := { s with
    received_count := s.received_count + 1
    topics := addTopic s.topics e.topic }
  match outcome with
  | .ok =>
    if keyPresent s1.db e.topic e.event_id then
      (.ok false, { s1 with duplicate_count := s1.duplicate_count + 1 })
    else
      (.ok true, { s1 with
        db := s1.db ++ [⟨e.topic, e.event_id, e.timestamp, e.source, e.payload, processed_at⟩]
        unique_count := s1.unique_count + 1 })
  | .integrityError =>
    (.ok false, { s1 with duplicate_count := s1.duplicate_count + 1 })
  | .otherError =>
    (.error .otherError, s1)

/-- Insertion sort step for `ORDER BY topic`. -/
def insortStr (x : String) : List String → List String
  | [] => [x]
  | y :: ys => if x ≤ y then x :: y :: ys else y :: insortStr x ys

/-- `ORDER BY topic` on the distinct topic list. -/
def sortStrs : List String → List String
  | [] => []
  | x :: xs => insortStr x (sortStrs xs)

/-- The record returned by `DedupStore.get_stats` / the `/stats` endpoint. -/
structure Stats where
  received : Nat
  unique_processed : Nat
  duplicate_dropped : Nat
  topics : List String
  deriving DecidableEq, Repr

/-- `DedupStore.get_stats()`: `received` and `duplicate_dropped` come from
the in-memory counters, while `unique_processed` is
`SELECT COUNT(*) FROM processed_events` and `topics` is
`SELECT DISTINCT topic ... ORDER BY topic`, both read from the database. -/
def DedupStore.get_stats (s : DedupStore) : Stats :=
  { received := s.received_count
    unique_processed := s.db.length
    duplicate_dropped := s.duplicate_count
    topics := sortStrs ((s.db.map fun r => r.topic).eraseDups) }

/-- `DedupStore.clear_all()`: `DELETE FROM processed_events`; the in-memory
counters are not touched. -/
def DedupStore.clear_all (s : DedupStore) : DedupStore :=
  { s with db := [] }

/-- `DedupStore.close()` closes the connection; what survives for a later
session is exactly the committed table contents. -/
def DedupStore.close (s : DedupStore) : List ProcessedEvent :=
  s.db

/-- `store_event` iterated `n` times on the same event against the same
store, collecting the returned booleans in call order. -/
def storeEventN (s : DedupStore) (e : Event) (processed_at : String) :
    Nat → List Bool × DedupStore
  | 0 => ([], s)
  | n + 1 =>
    let r1 := s.store_event e processed_at
    let rs := storeEventN r1.2 e processed_at n
    (r1.1 :: rs.1, rs.2)

/-- `store_event` folded over a list of events, collecting the returned
booleans in order. -/
def storeAll (s : DedupStore) (processed_at : String) :
    List Event → List Bool × DedupStore
  | [] => ([], s)
  | e :: es =>
    let r1 := s.store_event e processed_at
    let rs := storeAll r1.2 processed_at es
    (r1.1 :: rs.1, rs.2)

/-! ## Consumer (src/src/consumer.py) -/

/-- The `Consumer.stats` dictionary. -/
structure ConsumerStats where
  received : Nat
  unique_processed : Nat
  duplicate_dropped : Nat
  deriving DecidableEq, Repr

/-- Fresh consumer counters (`Consumer.__init__` / `reset_stats`). -/
def ConsumerStats.init : ConsumerStats :=
  { received := 0, unique_processed := 0, duplicate_dropped := 0 }

/-- The state the consumer loop acts on: the intake queue contents (front
first), the shared `DedupStore`, and the consumer's own counters. -/
structure ConsumerState where
  queue : List Event
  store : DedupStore
  stats : ConsumerStats
  deriving DecidableEq, Repr

/-- The per-event body of `Consumer._process_batch`: increment `received`,
call `store_event`, then increment `unique_processed` or
`duplicate_dropped` according to the verdict. -/
def processOne (store : DedupStore) (st : ConsumerStats) (e : Event)
    (now : String) : DedupStore × ConsumerStats :=
  let st1 := { st with received := st.received + 1 }
  let r := store.store_event e now
  if r.1 then
    (r.2, { st1 with unique_processed := st1.unique_processed + 1 })
  else
    (r.2, { st1 with duplicate_dropped := st1.duplicate_dropped + 1 })

/-- `Consumer._process_batch`: the batch is processed serially, one event
at a time. -/
def processBatch (store : DedupStore) (st : ConsumerStats) (now : String) :
    List Event → DedupStore × ConsumerStats
  | [] => (store, st)
  | e :: es =>
    let r := processOne store st e now
    processBatch r.1 r.2 now es

/-- One visit of the `_consume_loop` body while running: up to `batch_size`
events are pulled off the queue with `get_nowait` and handed to
`_process_batch` (an empty batch just sleeps). -/
def consumeStep (batch_size : Nat) (now : String) (s : ConsumerState) :
    ConsumerState :=
  let batch := s.queue.take batch_size
  let r := processBatch s.store s.stats now batch
  { queue := s.queue.drop batch_size, store := r.1, stats := r.2 }

/-- `_consume_loop` after `stop()` has set `running = False`: the
`while self.running or not self.queue.empty()` condition keeps the loop
alive exactly until the queue is empty.  `fuel` bounds the number of loop
visits; since every visit with a non-empty queue removes at least one
event when `batch_size ≥ 1`, `fuel = queue.length` is enough. -/
def consumeDrain (batch_size : Nat) (now : String) :
    Nat → ConsumerState → ConsumerState
  | 0, s => s
  | fuel + 1, s =>
    if s.queue.isEmpty then s
    else consumeDrain batch_size now fuel (consumeStep batch_size now s)

/-- `Consumer.stop()` from the running state: sets `running = False` and
awaits the loop task, which drains the queue and only then exits; `stop`
returns the state the loop finished in. -/
def Consumer.stop (batch_size : Nat) (now : String) (s : ConsumerState) :
    ConsumerState :=
  consumeDrain batch_size now s.queue.length s

/-! ## Publish boundary (src/src/api.py) -/

/-- The per-event body of the `/publish` endpoint loop: the event is
checked with `dedup_store.is_duplicate`; a hit is dropped (counted into
the store's `duplicate_count`, never enqueued), otherwise the event is put
on the consumer's queue. -/
def publish (s : ConsumerState) (e : Event) : ConsumerState :=
  let r := s.store.is_duplicate e
  if r.1 then
    { s with store := r.2 }
  else
    { s with store := r.2, queue := s.queue ++ [e] }

/-- Publishing a batch of submissions in order, with the consumer not
running in between. -/
def publishAll (s : ConsumerState) : List Event → ConsumerState
  | [] => s
  | e :: es => publishAll (publish s e) es

/-- The initial pipeline state: empty queue, store on an empty location,
zeroed consumer counters. -/
def pipelineInit : ConsumerState :=
  { queue := [], store := freshStore, stats := ConsumerStats.init }

/-! ## Intake queue (src/src/main.py, src/src/config.py) -/

/-- `Config.QUEUE_MAX_SIZE` default. -/
def QUEUE_MAX_SIZE : Nat := 10000

/-- The `asyncio.Queue(maxsize=...)` created in `Application.startup`,
holding its items front first. -/
structure IntakeQueue where
  maxsize : Nat
  items : List Event
  deriving DecidableEq, Repr

/-- `asyncio.Queue.full()`: with `maxsize <= 0` the queue is never full. -/
def IntakeQueue.full (q : IntakeQueue) : Bool :=
  0 < q.maxsize && q.maxsize ≤ q.items.length

/-- Result of one attempt of `queue.put(item)`: either the item is
appended, or the queue is full and the caller is suspended until space
frees up (no item is added and nothing is disturbed). -/
inductive PutResult
  | queued (q : IntakeQueue)
  | blocked
  deriving DecidableEq, Repr

/-- One attempt of `await queue.put(event)` as issued by the publish
endpoint. -/
def IntakeQueue.put_attempt (q : IntakeQueue) (e : Event) : PutResult :=
  if q.full then .blocked
  else .queued { q with items := q.items ++ [e] }

/-- `queue.get_nowait()`: removes and returns the front item when there is
one. -/
def IntakeQueue.get_one (q : IntakeQueue) : Option (Event × IntakeQueue) :=
  match q.items with
  | [] => none
  | e :: rest => some (e, { q with items := rest })

/-- An operation issued against the intake queue: a producer-side put or a
consumer-side get. -/
inductive QueueOp
  | put (e : Event)
  | get
  deriving DecidableEq, Repr

/-- Effect of one queue operation on the queue contents: a blocked `put`
leaves the queue untouched (the caller is merely suspended), a `get` on an
empty queue raises `QueueEmpty` without touching the queue. -/
def queueStep (q : IntakeQueue) : QueueOp → IntakeQueue
  | .put e =>
    match q.put_attempt e with
    | .queued q2 => q2
    | .blocked => q
  | .get =>
    match q.get_one with
    | some r => r.2
    | none => q

/-- A sequence of queue operations applied in order. -/
def queueRun (q : IntakeQueue) (ops : List QueueOp) : IntakeQueue :=
  ops.foldl queueStep q

/-! ## Helper lemmas -/

/-- The row `store_event` writes for an event. -/
def mkRecord (processed_at : String) (e : Event) : ProcessedEvent :=
  ⟨e.topic, e.event_id, e.timestamp, e.source, e.payload, processed_at⟩

/-- A call against the `DedupStore` API. -/
inductive StoreOp
  | store (e : Event) (processed_at : String)
  | isDup (e : Event)
  | getStats
  | clearAll
  deriving DecidableEq, Repr

/-- Whether the operation is an `is_duplicate` query. -/
def StoreOp.usesIsDup : StoreOp → Bool
  | .isDup _ => true
  | _ => false

/-- State effect of one `DedupStore` call (`get_stats` only reads). -/
def applyOp (s : DedupStore) : StoreOp → DedupStore
  | .store e t => (s.store_event e t).2
  | .isDup e => (s.is_duplicate e).2
  | .getStats => s
  | .clearAll => s.clear_all

/-- A sequence of `DedupStore` calls applied in order. -/
def applyOps (s : DedupStore) (ops : List StoreOp) : DedupStore :=
  ops.foldl applyOp s

theorem keyPresent_append (db db2 : List ProcessedEvent) (t i : String) :
    keyPresent (db ++ db2) t i = (keyPresent db t i || keyPresent db2 t i) := by
  simp [keyPresent, List.any_append]

theorem keyPresent_mkRecord (t : String) (e : Event) :
    keyPresent [mkRecord t e] e.topic e.event_id = true := by
  simp [keyPresent, mkRecord]

theorem countKey_append (db db2 : List ProcessedEvent) (t i : String) :
    countKey (db ++ db2) t i = countKey db t i + countKey db2 t i := by
  simp [countKey, List.filter_append]

theorem countKey_eq_zero_of_absent (db : List ProcessedEvent) (t i : String)
    (h : keyPresent db t i = false) : countKey db t i = 0 := by
  simp only [keyPresent, List.any_eq_false] at h
  simp only [countKey, List.length_eq_zero, List.filter_eq_nil_iff]
  intro r hr
  simpa using h r hr

theorem countKey_mkRecord (t : String) (e : Event) :
    countKey [mkRecord t e] e.topic e.event_id = 1 := by
  simp [countKey, mkRecord]

/-- `store_event` on an event whose key is already present: verdict
`False`, the table untouched, `received_count` and `duplicate_count`
bumped. -/
theorem store_event_of_present (s : DedupStore) (e : Event) (t : String)
    (h : keyPresent s.db e.topic e.event_id = true) :
    s.store_event e t =
      (false, { s with
        received_count := s.received_count + 1
        topics := addTopic s.topics e.topic
        duplicate_count := s.duplicate_count + 1 }) := by
  simp [DedupStore.store_event, h]

/-- `store_event` on an event whose key is absent: verdict `True`, the row
appended, `received_count` and `unique_count` bumped. -/
theorem store_event_of_absent (s : DedupStore) (e : Event) (t : String)
    (h : keyPresent s.db e.topic e.event_id = false) :
    s.store_event e t =
      (true, { s with
        received_count := s.received_count + 1
        topics := addTopic s.topics e.topic
        db := s.db ++ [mkRecord t e]
        unique_count := s.unique_count + 1 }) := by
  simp [DedupStore.store_event, h, mkRecord]

/-- On a store whose table already holds the event's key, every further
`store_event` of that event answers `False` and leaves the table as it
is. -/
theorem storeEventN_of_present (e : Event) (t : String) :
    ∀ (n : Nat) (s : DedupStore), keyPresent s.db e.topic e.event_id = true →
      (storeEventN s e t n).1 = List.replicate n false ∧
      (storeEventN s e t n).2.db = s.db
  | 0, s, _ => by simp [storeEventN]
  | n + 1, s, h => by
    have ih := storeEventN_of_present e t n
      { s with
        received_count := s.received_count + 1
        topics := addTopic s.topics e.topic
        duplicate_count := s.duplicate_count + 1 } (by simpa using h)
    simp [storeEventN, store_event_of_present s e t h, ih.1, ih.2,
      List.replicate_succ]

/-! ## Claims -/

/-- C1: calling `store_event` on the same event `n ≥ 1` times sequentially
against the same store (the event's key not yet stored) returns `True`
(Inserted) exactly once — on the first call — and `False` (Duplicate) on
the other `n - 1` calls, and afterwards exactly one row with the event's
`(topic, event_id)` key is stored. -/
theorem tryInsert_idempotent (s : DedupStore) (e : Event) (t : String) (n : Nat)
    (hn : 1 ≤ n) (hnew : keyPresent s.db e.topic e.event_id = false) :
    (storeEventN s e t n).1.count true = 1 ∧
    (storeEventN s e t n).1.count false = n - 1 ∧
    countKey (storeEventN s e t n).2.db e.topic e.event_id = 1 := by
  obtain ⟨m, rfl⟩ : ∃ m, n = m + 1 := ⟨n - 1, (Nat.succ_pred_eq_of_pos hn).symm⟩
  have hfirst := store_event_of_absent s e t hnew
  have hpresent : keyPresent (s.db ++ [mkRecord t e]) e.topic e.event_id = true := by
    simp [keyPresent_append, keyPresent_mkRecord]
  have hrest := storeEventN_of_present e t m
    { s with
      received_count := s.received_count + 1
      topics := addTopic s.topics e.topic
      db := s.db ++ [mkRecord t e]
      unique_count := s.unique_count + 1 } (by simpa using hpresent)
  have hcount : countKey (s.db ++ [mkRecord t e]) e.topic e.event_id = 1 := by
    rw [countKey_append, countKey_eq_zero_of_absent s.db _ _ hnew, countKey_mkRecord]
  simp [storeEventN, hfirst, hrest.1, hrest.2, hcount, List.count_replicate]

/-- Concrete instance of `tryInsert_idempotent`: three submissions of one
event against a fresh store. -/
theorem tryInsert_idempotent_witness :
    1 ≤ 3 ∧ keyPresent freshStore.db "t" "e1" = false ∧
    ((storeEventN freshStore ⟨"t", "e1", "ts", "src", "p"⟩ "now" 3).1.count true = 1 ∧
     (storeEventN freshStore ⟨"t", "e1", "ts", "src", "p"⟩ "now" 3).1.count false = 3 - 1 ∧
     countKey (storeEventN freshStore ⟨"t", "e1", "ts", "src", "p"⟩ "now" 3).2.db "t" "e1" = 1) :=
  ⟨by decide, by decide,
    tryInsert_idempotent freshStore ⟨"t", "e1", "ts", "src", "p"⟩ "now" 3
      (by decide) (by decide)⟩

/-- C2: the duplicate verdict depends only on `(topic, event_id)`.  Two
events with the same `event_id` but different topics both insert into a
fresh store; two events with the same topic and `event_id` but different
payload, timestamp or source collide — the second is a Duplicate. -/
theorem dedup_key_isolation (a b : Event) (t1 t2 : String) :
    ((freshStore.store_event a t1).1 = true) ∧
    (a.event_id = b.event_id → a.topic ≠ b.topic →
      ((freshStore.store_event a t1).2.store_event b t2).1 = true) ∧
    (a.topic = b.topic → a.event_id = b.event_id →
      (a.payload ≠ b.payload ∨ a.timestamp ≠ b.timestamp ∨ a.source ≠ b.source) →
      ((freshStore.store_event a t1).2.store_event b t2).1 = false) := by
  have h1 : freshStore.store_event a t1 =
      (true, { db := [mkRecord t1 a], received_count := 1, unique_count := 1,
               duplicate_count := 0, topics := [a.topic] }) := by
    simp [freshStore, DedupStore.init, DedupStore.store_event, keyPresent,
      addTopic, mkRecord]
  refine ⟨by simp [h1], ?_, ?_⟩
  · intro _ htopic
    have hb : keyPresent [mkRecord t1 a] b.topic b.event_id = false := by
      simp [keyPresent, mkRecord, beq_eq_false_iff_ne.mpr htopic]
    rw [h1]
    rw [store_event_of_absent
      { db := [mkRecord t1 a], received_count := 1, unique_count := 1,
        duplicate_count := 0, topics := [a.topic] } b t2 hb]
  · intro htopic hid _
    have hb : keyPresent [mkRecord t1 a] b.topic b.event_id = true := by
      simp [keyPresent, mkRecord, htopic, hid]
    rw [h1]
    rw [store_event_of_present
      { db := [mkRecord t1 a], received_count := 1, unique_count := 1,
        duplicate_count := 0, topics := [a.topic] } b t2 hb]

/-- Concrete instance of `dedup_key_isolation`: same `event_id` under
topics "t" and "u", and a same-key pair with different payloads. -/
theorem dedup_key_isolation_witness :
    ((Event.mk "t" "e1" "ts" "src" "p1").event_id = (Event.mk "t" "e1" "ts2" "src2" "p2").event_id) ∧
    (((freshStore.store_event ⟨"t", "e1", "ts", "src", "p1"⟩ "n1").1 = true) ∧
     ((Event.mk "t" "e1" "ts" "src" "p1").event_id = (Event.mk "u" "e1" "ts" "src" "p1").event_id →
       (Event.mk "t" "e1" "ts" "src" "p1").topic ≠ (Event.mk "u" "e1" "ts" "src" "p1").topic →
      ((freshStore.store_event ⟨"t", "e1", "ts", "src", "p1"⟩ "n1").2.store_event
        ⟨"u", "e1", "ts", "src", "p1"⟩ "n2").1 = true)) ∧
    (((freshStore.store_event ⟨"t", "e1", "ts", "src", "p1"⟩ "n1").2.store_event
        ⟨"t", "e1", "ts2", "src2", "p2"⟩ "n2").1 = false) := by
  refine ⟨by decide, ⟨?_, ?_⟩, ?_⟩
  · exact (dedup_key_isolation ⟨"t", "e1", "ts", "src", "p1"⟩
      ⟨"u", "e1", "ts", "src", "p1"⟩ "n1" "n2").1
  · exact (dedup_key_isolation ⟨"t", "e1", "ts", "src", "p1"⟩
      ⟨"u", "e1", "ts", "src", "p1"⟩ "n1" "n2").2.1
  · exact (dedup_key_isolation ⟨"t", "e1", "ts", "src", "p1"⟩
      ⟨"t", "e1", "ts2", "src2", "p2"⟩ "n1" "n2").2.2 (by decide) (by decide)
      (Or.inl (by decide))

/-- Sanity link between the two translations of `store_event`: when the
storage layer completes normally, the fallible model agrees with the plain
one. -/
theorem store_event_f_ok_agrees (s : DedupStore) (e : Event) (t : String) :
    s.store_event_f e t .ok = (.ok (s.store_event e t).1, (s.store_event e t).2) := by
  by_cases h : keyPresent s.db e.topic e.event_id <;>
    simp [DedupStore.store_event_f, DedupStore.store_event, h]

/-- C7 (amended): a storage exception other than `sqlite3.IntegrityError`
raised during `store_event` yields neither the Inserted nor the Duplicate
verdict: the exception propagates unchanged to the caller (the code
defines no separate `StoreUnavailable` kind), nothing is persisted, and
neither `unique_count` nor `duplicate_count` moves (`received_count` was
already incremented before the `try` block). -/
theorem store_error_never_inserted_nor_duplicate (s : DedupStore) (e : Event) (t : String) :
    (s.store_event_f e t .otherError).1 = .error .otherError ∧
    (s.store_event_f e t .otherError).2.db = s.db ∧
    (s.store_event_f e t .otherError).2.unique_count = s.unique_count ∧
    (s.store_event_f e t .otherError).2.duplicate_count = s.duplicate_count ∧
    (s.store_event_f e t .otherError).2.received_count = s.received_count + 1 := by
  simp [DedupStore.store_event_f]

/-- C7 counterexample to the claim as stated: an `sqlite3.IntegrityError`
raised by the storage layer during the insert is caught by `store_event`
and reported as the Duplicate verdict (`False`) instead of propagating as
an error — so not every storage error avoids the Duplicate verdict. -/
theorem store_error_conflated_with_duplicate :
    (freshStore.store_event_f ⟨"t", "e1", "ts", "src", "p"⟩ "now" .integrityError).1
      = .ok false ∧
    (freshStore.store_event_f ⟨"t", "e1", "ts", "src", "p"⟩ "now" .integrityError).2.duplicate_count
      = 1 := by
  constructor <;> rfl

/-- C8 (amended): `is_duplicate` returns exactly whether a row with the
event's `(topic, event_id)` key is persisted and leaves the table,
`received_count`, `unique_count` and the topic set unchanged — but it is
not fully read-only: it increments `duplicate_count` whenever the answer
is `True`. -/
theorem is_duplicate_query_effect (s : DedupStore) (e : Event) :
    (s.is_duplicate e).1 = keyPresent s.db e.topic e.event_id ∧
    (s.is_duplicate e).2.db = s.db ∧
    (s.is_duplicate e).2.received_count = s.received_count ∧
    (s.is_duplicate e).2.unique_count = s.unique_count ∧
    (s.is_duplicate e).2.topics = s.topics ∧
    (s.is_duplicate e).2.duplicate_count =
      s.duplicate_count + (if keyPresent s.db e.topic e.event_id then 1 else 0) := by
  by_cases h : keyPresent s.db e.topic e.event_id <;> simp [DedupStore.is_duplicate, h]

/-- C8 counterexample to the claim as stated: after one insert, querying
the same event with `is_duplicate` moves `duplicate_count` from 0 to 1,
so the store state is not left unchanged. -/
theorem is_duplicate_not_read_only :
    ((freshStore.store_event ⟨"t", "e1", "ts", "src", "p"⟩ "now").2).duplicate_count = 0 ∧
    (((freshStore.store_event ⟨"t", "e1", "ts", "src", "p"⟩ "now").2.is_duplicate
        ⟨"t", "e1", "ts", "src", "p"⟩).2).duplicate_count = 1 := by
  constructor <;> rfl

/-- C10: `get_stats` reads `unique_processed` as the number of rows
currently persisted (rows from earlier sessions on the same file
included), while `received` and `duplicate_dropped` are in-memory
counters zeroed by `__init__`; hence a store just opened on a non-empty
persisted location reports `unique_processed > received`. -/
theorem stats_fresh_instance_on_persisted (persisted : List ProcessedEvent)
    (h : persisted ≠ []) :
    (DedupStore.init persisted).get_stats.received = 0 ∧
    (DedupStore.init persisted).get_stats.duplicate_dropped = 0 ∧
    (DedupStore.init persisted).get_stats.unique_processed = persisted.length ∧
    (DedupStore.init persisted).get_stats.received
      < (DedupStore.init persisted).get_stats.unique_processed := by
  refine ⟨rfl, rfl, rfl, ?_⟩
  simpa [DedupStore.init, DedupStore.get_stats] using List.length_pos.mpr h

/-- One `DedupStore` call other than `is_duplicate` keeps the running
identity `received_count = unique_count + duplicate_count`. -/
theorem applyOp_counter_identity (s : DedupStore) (op : StoreOp)
    (hop : op.usesIsDup = false)
    (h : s.received_count = s.unique_count + s.duplicate_count) :
    (applyOp s op).received_count
      = (applyOp s op).unique_count + (applyOp s op).duplicate_count := by
  cases op with
  | store e t =>
    by_cases hk : keyPresent s.db e.topic e.event_id = true
    · simp [applyOp, store_event_of_present s e t hk, h]
      omega
    · simp only [Bool.not_eq_true] at hk
      simp [applyOp, store_event_of_absent s e t hk, h]
      omega
  | isDup e => simp [StoreOp.usesIsDup] at hop
  | getStats => simpa [applyOp] using h
  | clearAll => simpa [applyOp, DedupStore.clear_all] using h

/-- C4 (amended): starting from a fresh store, after every sequence of
store calls that never uses `is_duplicate` (i.e. only `store_event`,
`get_stats`, `clear_all`) the counters satisfy
`received_count = unique_count + duplicate_count` — every received event
is attempted via `store_event`, so the inequality of the claim holds with
equality.  `is_duplicate` is excluded because it increments
`duplicate_count` without touching `received_count` and can break the
inequality. -/
theorem counter_identity_without_isDup (ops : List StoreOp)
    (hops : ∀ op ∈ ops, op.usesIsDup = false) :
    (applyOps freshStore ops).received_count
      = (applyOps freshStore ops).unique_count
        + (applyOps freshStore ops).duplicate_count ∧
    (applyOps freshStore ops).unique_count + (applyOps freshStore ops).duplicate_count
      ≤ (applyOps freshStore ops).received_count := by
  have haux : ∀ (l : List StoreOp) (s : DedupStore),
      (∀ op ∈ l, op.usesIsDup = false) →
      s.received_count = s.unique_count + s.duplicate_count →
      (applyOps s l).received_count
        = (applyOps s l).unique_count + (applyOps s l).duplicate_count := by
    intro l
    induction l with
    | nil => intro s _ h; simpa [applyOps] using h
    | cons op rest ih =>
      intro s hl h
      have h1 := applyOp_counter_identity s op (hl op (by simp)) h
      simpa [applyOps] using ih (applyOp s op) (fun o ho => hl o (by simp [ho])) h1
  have hmain := haux ops freshStore hops (by decide)
  exact ⟨hmain, Nat.le_of_eq hmain.symm⟩

/-- Concrete instance of `counter_identity_without_isDup`: two inserts of
the same event, a stats read and a purge. -/
theorem counter_identity_witness :
    (∀ op ∈ ([.store ⟨"t", "e1", "ts", "src", "p"⟩ "n1",
              .store ⟨"t", "e1", "ts", "src", "p"⟩ "n2",
              .getStats, .clearAll] : List StoreOp), op.usesIsDup = false) ∧
    ((applyOps freshStore [.store ⟨"t", "e1", "ts", "src", "p"⟩ "n1",
              .store ⟨"t", "e1", "ts", "src", "p"⟩ "n2",
              .getStats, .clearAll]).received_count
       = (applyOps freshStore [.store ⟨"t", "e1", "ts", "src", "p"⟩ "n1",
              .store ⟨"t", "e1", "ts", "src", "p"⟩ "n2",
              .getStats, .clearAll]).unique_count
         + (applyOps freshStore [.store ⟨"t", "e1", "ts", "src", "p"⟩ "n1",
              .store ⟨"t", "e1", "ts", "src", "p"⟩ "n2",
              .getStats, .clearAll]).duplicate_count ∧
     (applyOps freshStore [.store ⟨"t", "e1", "ts", "src", "p"⟩ "n1",
              .store ⟨"t", "e1", "ts", "src", "p"⟩ "n2",
              .getStats, .clearAll]).unique_count
       + (applyOps freshStore [.store ⟨"t", "e1", "ts", "src", "p"⟩ "n1",
              .store ⟨"t", "e1", "ts", "src", "p"⟩ "n2",
              .getStats, .clearAll]).duplicate_count
       ≤ (applyOps freshStore [.store ⟨"t", "e1", "ts", "src", "p"⟩ "n1",
              .store ⟨"t", "e1", "ts", "src", "p"⟩ "n2",
              .getStats, .clearAll]).received_count) :=
  ⟨by decide, counter_identity_without_isDup _ (by decide)⟩

/-- A single stored row never matches the key of an event with a
different dedup key. -/
theorem keyPresent_single_of_key_ne (e f : Event) (t : String)
    (h : e.topic ≠ f.topic ∨ e.event_id ≠ f.event_id) :
    keyPresent [mkRecord t e] f.topic f.event_id = false := by
  simp only [keyPresent, mkRecord, List.any_cons, List.any_nil, Bool.or_false]
  rcases h with h | h
  · simp [beq_eq_false_iff_ne.mpr h]
  · simp [beq_eq_false_iff_ne.mpr h]

/-- `storeAll` over events with pairwise-distinct dedup keys, none of them
stored yet: every call answers Inserted and the rows are appended in
order. -/
theorem storeAll_of_all_absent (t : String) :
    ∀ (es : List Event) (s : DedupStore),
      (∀ e ∈ es, keyPresent s.db e.topic e.event_id = false) →
      es.Pairwise (fun x y => x.topic ≠ y.topic ∨ x.event_id ≠ y.event_id) →
      (storeAll s t es).1 = List.replicate es.length true ∧
      (storeAll s t es).2.db = s.db ++ es.map (mkRecord t)
  | [], s, _, _ => by simp [storeAll]
  | e :: rest, s, habs, hdist => by
    have he := habs e (by simp)
    have hstep := store_event_of_absent s e t he
    have hrest : ∀ f ∈ rest,
        keyPresent (s.db ++ [mkRecord t e]) f.topic f.event_id = false := by
      intro f hf
      rw [keyPresent_append]
      rw [habs f (by simp [hf]), keyPresent_single_of_key_ne e f t
        ((List.pairwise_cons.mp hdist).1 f hf)]
      rfl
    have ih := storeAll_of_all_absent t rest
      { s with
        received_count := s.received_count + 1
        topics := addTopic s.topics e.topic
        db := s.db ++ [mkRecord t e]
        unique_count := s.unique_count + 1 }
      (by simpa using hrest) (List.pairwise_cons.mp hdist).2
    simp [storeAll, hstep, ih.1, ih.2, List.replicate_succ]

/-- `storeAll` over events whose keys are all already stored: every call
answers Duplicate and the table does not change. -/
theorem storeAll_of_all_present (t : String) :
    ∀ (es : List Event) (s : DedupStore),
      (∀ e ∈ es, keyPresent s.db e.topic e.event_id = true) →
      (storeAll s t es).1 = List.replicate es.length false ∧
      (storeAll s t es).2.db = s.db
  | [], s, _ => by simp [storeAll]
  | e :: rest, s, hpres => by
    have he := hpres e (by simp)
    have hstep := store_event_of_present s e t he
    have ih := storeAll_of_all_present t rest
      { s with
        received_count := s.received_count + 1
        topics := addTopic s.topics e.topic
        duplicate_count := s.duplicate_count + 1 }
      (by intro f hf; simpa using hpres f (by simp [hf]))
    simp [storeAll, hstep, ih.1, ih.2, List.replicate_succ]

/-- Every event of `es` has its key present among the rows written for
`es`. -/
theorem keyPresent_map_of_mem (t : String) (es : List Event) (e : Event)
    (he : e ∈ es) :
    keyPresent (es.map (mkRecord t)) e.topic e.event_id = true := by
  have hmem : mkRecord t e ∈ es.map (mkRecord t) := List.mem_map_of_mem _ he
  simp only [keyPresent, List.any_eq_true]
  exact ⟨mkRecord t e, hmem, by simp [mkRecord]⟩

/-- C5: for events with pairwise-distinct dedup keys, inserting all of
them into a fresh store answers Inserted each time; closing the store,
opening a fresh instance on the same persisted rows, and resubmitting the
same events answers Duplicate each time and leaves the persisted
unique-record count at `es.length`. -/
theorem durability_across_restart (es : List Event) (t1 t2 : String)
    (hdist : es.Pairwise (fun x y => x.topic ≠ y.topic ∨ x.event_id ≠ y.event_id)) :
    (storeAll freshStore t1 es).1 = List.replicate es.length true ∧
    (storeAll (DedupStore.init (storeAll freshStore t1 es).2.close) t2 es).1
      = List.replicate es.length false ∧
    (storeAll (DedupStore.init (storeAll freshStore t1 es).2.close) t2 es).2.db.length
      = es.length := by
  have h1 := storeAll_of_all_absent t1 es freshStore
    (by intro e _; simp [freshStore, DedupStore.init, keyPresent]) hdist
  have hdb : (storeAll freshStore t1 es).2.close = es.map (mkRecord t1) := by
    simpa [DedupStore.close, freshStore, DedupStore.init] using h1.2
  have h2 := storeAll_of_all_present t2 es (DedupStore.init (es.map (mkRecord t1)))
    (fun e he => by simpa [DedupStore.init] using keyPresent_map_of_mem t1 es e he)
  rw [hdb]
  refine ⟨h1.1, h2.1, ?_⟩
  rw [h2.2]
  simp [DedupStore.init]

/-- Concrete instance of `durability_across_restart`: two events with
distinct dedup keys survive a close/reopen round trip. -/
theorem durability_across_restart_witness :
    ([⟨"t", "e1", "ts", "src", "p"⟩, ⟨"t", "e2", "ts", "src", "p"⟩] : List Event).Pairwise
      (fun x y => x.topic ≠ y.topic ∨ x.event_id ≠ y.event_id) ∧
    ((storeAll freshStore "n1" [⟨"t", "e1", "ts", "src", "p"⟩, ⟨"t", "e2", "ts", "src", "p"⟩]).1
        = List.replicate 2 true ∧
     (storeAll (DedupStore.init
        (storeAll freshStore "n1"
          [⟨"t", "e1", "ts", "src", "p"⟩, ⟨"t", "e2", "ts", "src", "p"⟩]).2.close) "n2"
        [⟨"t", "e1", "ts", "src", "p"⟩, ⟨"t", "e2", "ts", "src", "p"⟩]).1
        = List.replicate 2 false ∧
     (storeAll (DedupStore.init
        (storeAll freshStore "n1"
          [⟨"t", "e1", "ts", "src", "p"⟩, ⟨"t", "e2", "ts", "src", "p"⟩]).2.close) "n2"
        [⟨"t", "e1", "ts", "src", "p"⟩, ⟨"t", "e2", "ts", "src", "p"⟩]).2.db.length = 2) :=
  ⟨by decide, durability_across_restart
    [⟨"t", "e1", "ts", "src", "p"⟩, ⟨"t", "e2", "ts", "src", "p"⟩] "n1" "n2" (by decide)⟩

/-- C4 counterexample to the claim as stated: from a fresh store, the
sequence `store_event E; is_duplicate E` leaves
`received_count = 1 < 2 = unique_count + duplicate_count`, because
`is_duplicate` bumps `duplicate_count` without bumping
`received_count`. -/
theorem counter_invariant_broken_by_isDup :
    ¬ ((applyOps freshStore
          [.store ⟨"t", "e1", "ts", "src", "p"⟩ "now",
           .isDup ⟨"t", "e1", "ts", "src", "p"⟩]).unique_count
        + (applyOps freshStore
          [.store ⟨"t", "e1", "ts", "src", "p"⟩ "now",
           .isDup ⟨"t", "e1", "ts", "src", "p"⟩]).duplicate_count
        ≤ (applyOps freshStore
          [.store ⟨"t", "e1", "ts", "src", "p"⟩ "now",
           .isDup ⟨"t", "e1", "ts", "src", "p"⟩]).received_count) := by
  decide

/-- The per-event consumer step always advances `received` (its own
counter and the store's), whatever the verdict. -/
theorem processOne_received (store : DedupStore) (st : ConsumerStats) (e : Event)
    (now : String) :
    (processOne store st e now).2.received = st.received + 1 ∧
    (processOne store st e now).1.received_count = store.received_count + 1 := by
  by_cases h : keyPresent store.db e.topic e.event_id = true
  · simp [processOne, store_event_of_present store e now h]
  · simp only [Bool.not_eq_true] at h
    simp [processOne, store_event_of_absent store e now h]

/-- The per-event consumer step preserves
`received = unique_processed + duplicate_dropped`. -/
theorem processOne_stats_identity (store : DedupStore) (st : ConsumerStats)
    (e : Event) (now : String)
    (h : st.received = st.unique_processed + st.duplicate_dropped) :
    (processOne store st e now).2.received
      = (processOne store st e now).2.unique_processed
        + (processOne store st e now).2.duplicate_dropped := by
  rcases hb : (store.store_event e now).1 <;> simp [processOne, hb, h] <;> omega

/-- A batch advances `received` by exactly the batch size, on the consumer
counter and on the store counter alike. -/
theorem processBatch_received (now : String) :
    ∀ (batch : List Event) (store : DedupStore) (st : ConsumerStats),
      (processBatch store st now batch).2.received = st.received + batch.length ∧
      (processBatch store st now batch).1.received_count
        = store.received_count + batch.length
  | [], store, st => by simp [processBatch]
  | e :: rest, store, st => by
    have h1 := processOne_received store st e now
    have ih := processBatch_received now rest (processOne store st e now).1
      (processOne store st e now).2
    refine ⟨?_, ?_⟩
    · simp only [processBatch]
      rw [ih.1, h1.1, List.length_cons]
      omega
    · simp only [processBatch]
      rw [ih.2, h1.2, List.length_cons]
      omega

/-- A batch preserves the consumer counter identity. -/
theorem processBatch_stats_identity (now : String) :
    ∀ (batch : List Event) (store : DedupStore) (st : ConsumerStats),
      st.received = st.unique_processed + st.duplicate_dropped →
      (processBatch store st now batch).2.received
        = (processBatch store st now batch).2.unique_processed
          + (processBatch store st now batch).2.duplicate_dropped
  | [], store, st, h => by simpa [processBatch] using h
  | e :: rest, store, st, h => by
    have h1 := processOne_stats_identity store st e now h
    have ih := processBatch_stats_identity now rest (processOne store st e now).1
      (processOne store st e now).2 h1
    simpa [processBatch] using ih

/-- One visit of the loop body: the first `min batch_size len` queued
events are consumed and counted. -/
theorem consumeStep_spec (bs : Nat) (now : String) (s : ConsumerState) :
    (consumeStep bs now s).queue = s.queue.drop bs ∧
    (consumeStep bs now s).stats.received
      = s.stats.received + min bs s.queue.length ∧
    (consumeStep bs now s).store.received_count
      = s.store.received_count + min bs s.queue.length := by
  have h := processBatch_received now (s.queue.take bs) s.store s.stats
  refine ⟨rfl, ?_, ?_⟩
  · simpa [consumeStep, List.length_take] using h.1
  · simpa [consumeStep, List.length_take] using h.2

/-- The drain loop with enough fuel (`batch_size ≥ 1` makes every visit
with a non-empty queue consume at least one event): it ends with the
queue empty, having counted every queued event. -/
theorem consumeDrain_spec (bs : Nat) (now : String) (hbs : 1 ≤ bs) :
    ∀ (fuel : Nat) (s : ConsumerState), s.queue.length ≤ fuel →
      (consumeDrain bs now fuel s).queue = [] ∧
      (consumeDrain bs now fuel s).stats.received
        = s.stats.received + s.queue.length ∧
      (consumeDrain bs now fuel s).store.received_count
        = s.store.received_count + s.queue.length
  | 0, s, h => by
    have hq : s.queue = [] := List.eq_nil_of_length_eq_zero (Nat.le_zero.mp h)
    simp [consumeDrain, hq]
  | fuel + 1, s, h => by
    by_cases hq : s.queue.isEmpty
    · have hq2 : s.queue = [] := List.isEmpty_iff.mp hq
      simp [consumeDrain, hq, hq2]
    · have hlen : 1 ≤ s.queue.length := by
        cases hcons : s.queue with
        | nil => rw [hcons] at hq; simp at hq
        | cons a l => simp [hcons]
      have hstep := consumeStep_spec bs now s
      have hfuel : (consumeStep bs now s).queue.length ≤ fuel := by
        rw [hstep.1, List.length_drop]
        omega
      have ih := consumeDrain_spec bs now hbs fuel (consumeStep bs now s) hfuel
      have hrecv : (consumeStep bs now s).queue.length = s.queue.length - bs := by
        rw [hstep.1, List.length_drop]
      refine ⟨by simpa [consumeDrain, hq] using ih.1, ?_, ?_⟩
      · have := ih.2.1
        rw [hrecv, hstep.2.1] at this
        simp only [consumeDrain, hq, if_neg]
        simp only [Bool.not_eq_true] at hq
        simp [hq, this]
        omega
      · have := ih.2.2
        rw [hrecv, hstep.2.2] at this
        simp only [Bool.not_eq_true] at hq
        simp [consumeDrain, hq, this]
        omega

/-- The drain loop preserves the consumer counter identity, for any
fuel. -/
theorem consumeDrain_stats_identity (bs : Nat) (now : String) :
    ∀ (fuel : Nat) (s : ConsumerState),
      s.stats.received = s.stats.unique_processed + s.stats.duplicate_dropped →
      (consumeDrain bs now fuel s).stats.received
        = (consumeDrain bs now fuel s).stats.unique_processed
          + (consumeDrain bs now fuel s).stats.duplicate_dropped
  | 0, s, h => by simpa [consumeDrain] using h
  | fuel + 1, s, h => by
    by_cases hq : s.queue.isEmpty
    · simpa [consumeDrain, hq] using h
    · have h1 : (consumeStep bs now s).stats.received
          = (consumeStep bs now s).stats.unique_processed
            + (consumeStep bs now s).stats.duplicate_dropped := by
        simpa [consumeStep] using
          processBatch_stats_identity now (s.queue.take bs) s.store s.stats h
      have ih := consumeDrain_stats_identity bs now fuel (consumeStep bs now s) h1
      simpa [consumeDrain, hq] using ih

/-- C6: `stop()` (from the running state) returns only once the loop has
fully drained: the returned state has an empty queue, and every event
that was queued when `stop()` was called has been pushed through
`store_event` (the store's `received_count` grew by the queue length) and
is reflected in the consumer's `stats()` (`received` grew by the queue
length). -/
theorem stop_waits_for_drain (bs : Nat) (now : String) (s : ConsumerState)
    (hbs : 1 ≤ bs) :
    (Consumer.stop bs now s).queue = [] ∧
    (Consumer.stop bs now s).stats.received = s.stats.received + s.queue.length ∧
    (Consumer.stop bs now s).store.received_count
      = s.store.received_count + s.queue.length :=
  consumeDrain_spec bs now hbs s.queue.length s (Nat.le_refl _)

/-- Concrete instance of `stop_waits_for_drain`: 50 events queued, batch
size 100; `stop` drains and counts all 50. -/
theorem stop_waits_for_drain_witness :
    1 ≤ 100 ∧
    ((Consumer.stop 100 "now"
        ⟨(List.range 50).map (fun i => ⟨"t", toString i, "ts", "src", "p"⟩),
         freshStore, ConsumerStats.init⟩).queue = [] ∧
     (Consumer.stop 100 "now"
        ⟨(List.range 50).map (fun i => ⟨"t", toString i, "ts", "src", "p"⟩),
         freshStore, ConsumerStats.init⟩).stats.received
       = ConsumerStats.init.received
         + ((List.range 50).map (fun i =>
             (⟨"t", toString i, "ts", "src", "p"⟩ : Event))).length ∧
     (Consumer.stop 100 "now"
        ⟨(List.range 50).map (fun i => ⟨"t", toString i, "ts", "src", "p"⟩),
         freshStore, ConsumerStats.init⟩).store.received_count
       = freshStore.received_count
         + ((List.range 50).map (fun i =>
             (⟨"t", toString i, "ts", "src", "p"⟩ : Event))).length) :=
  ⟨by decide, stop_waits_for_drain 100 "now"
    ⟨(List.range 50).map (fun i => ⟨"t", toString i, "ts", "src", "p"⟩),
     freshStore, ConsumerStats.init⟩ (by decide)⟩

/-- While the store's table is still empty, the publish boundary never
sees a duplicate: every submission is enqueued in order and nothing else
changes. -/
theorem publishAll_empty_db :
    ∀ (es : List Event) (s : ConsumerState), s.store.db = [] →
      publishAll s es = { s with queue := s.queue ++ es }
  | [], s, _ => by simp [publishAll]
  | e :: rest, s, h => by
    have hkey : keyPresent s.store.db e.topic e.event_id = false := by
      simp [h, keyPresent]
    have hpub : publish s e = { s with queue := s.queue ++ [e] } := by
      simp [publish, DedupStore.is_duplicate, hkey]
    have ih := publishAll_empty_db rest { s with queue := s.queue ++ [e] }
      (by simpa using h)
    simp [publishAll, hpub, ih]

/-- C3 (amended): when all `R` submissions pass the publish boundary
before the consumer runs (so none is rejected by the boundary's
`is_duplicate` pre-check), after the queue fully drains the consumer's
counters satisfy `received = unique_processed + duplicate_dropped = R`;
in particular submitting `(topic t, event_id e1)` three times interleaved
with `(topic t, event_id e2)` twice ends with
`received = 5, unique_processed = 2, duplicate_dropped = 3`.  (If the
consumer drains between submissions, a resubmission is dropped at the
boundary and never counted as received — see the counterexample.) -/
theorem pipeline_counter_identity (es : List Event) (bs : Nat) (now : String)
    (hbs : 1 ≤ bs) :
    ((Consumer.stop bs now (publishAll pipelineInit es)).stats.received
       = es.length ∧
     (Consumer.stop bs now (publishAll pipelineInit es)).stats.received
       = (Consumer.stop bs now (publishAll pipelineInit es)).stats.unique_processed
         + (Consumer.stop bs now (publishAll pipelineInit es)).stats.duplicate_dropped) ∧
    (Consumer.stop 100 "now" (publishAll pipelineInit
        [⟨"t", "e1", "ts", "src", "p"⟩, ⟨"t", "e2", "ts", "src", "p"⟩,
         ⟨"t", "e1", "ts", "src", "p"⟩, ⟨"t", "e2", "ts", "src", "p"⟩,
         ⟨"t", "e1", "ts", "src", "p"⟩])).stats
      = ⟨5, 2, 3⟩ := by
  have hpub := publishAll_empty_db es pipelineInit rfl
  have hstate : publishAll pipelineInit es
      = ⟨es, freshStore, ConsumerStats.init⟩ := by
    simpa [pipelineInit] using hpub
  have hdrain := consumeDrain_spec bs now hbs es.length
    (⟨es, freshStore, ConsumerStats.init⟩ : ConsumerState) (Nat.le_refl _)
  have hident := consumeDrain_stats_identity bs now es.length
    (⟨es, freshStore, ConsumerStats.init⟩ : ConsumerState) rfl
  refine ⟨⟨?_, ?_⟩, by decide⟩
  · rw [hstate]
    simpa [Consumer.stop, ConsumerStats.init] using hdrain.2.1
  · rw [hstate]
    simpa [Consumer.stop] using hident

/-- Concrete instance of `pipeline_counter_identity` at the five-event
scenario of the claim. -/
theorem pipeline_counter_identity_witness :
    1 ≤ 100 ∧
    (((Consumer.stop 100 "now" (publishAll pipelineInit
        [⟨"t", "e1", "ts", "src", "p"⟩, ⟨"t", "e2", "ts", "src", "p"⟩,
         ⟨"t", "e1", "ts", "src", "p"⟩, ⟨"t", "e2", "ts", "src", "p"⟩,
         ⟨"t", "e1", "ts", "src", "p"⟩])).stats.received
       = ([⟨"t", "e1", "ts", "src", "p"⟩, ⟨"t", "e2", "ts", "src", "p"⟩,
         ⟨"t", "e1", "ts", "src", "p"⟩, ⟨"t", "e2", "ts", "src", "p"⟩,
         ⟨"t", "e1", "ts", "src", "p"⟩] : List Event).length ∧
     (Consumer.stop 100 "now" (publishAll pipelineInit
        [⟨"t", "e1", "ts", "src", "p"⟩, ⟨"t", "e2", "ts", "src", "p"⟩,
         ⟨"t", "e1", "ts", "src", "p"⟩, ⟨"t", "e2", "ts", "src", "p"⟩,
         ⟨"t", "e1", "ts", "src", "p"⟩])).stats.received
       = (Consumer.stop 100 "now" (publishAll pipelineInit
        [⟨"t", "e1", "ts", "src", "p"⟩, ⟨"t", "e2", "ts", "src", "p"⟩,
         ⟨"t", "e1", "ts", "src", "p"⟩, ⟨"t", "e2", "ts", "src", "p"⟩,
         ⟨"t", "e1", "ts", "src", "p"⟩])).stats.unique_processed
         + (Consumer.stop 100 "now" (publishAll pipelineInit
        [⟨"t", "e1", "ts", "src", "p"⟩, ⟨"t", "e2", "ts", "src", "p"⟩,
         ⟨"t", "e1", "ts", "src", "p"⟩, ⟨"t", "e2", "ts", "src", "p"⟩,
         ⟨"t", "e1", "ts", "src", "p"⟩])).stats.duplicate_dropped) ∧
     (Consumer.stop 100 "now" (publishAll pipelineInit
        [⟨"t", "e1", "ts", "src", "p"⟩, ⟨"t", "e2", "ts", "src", "p"⟩,
         ⟨"t", "e1", "ts", "src", "p"⟩, ⟨"t", "e2", "ts", "src", "p"⟩,
         ⟨"t", "e1", "ts", "src", "p"⟩])).stats
      = ⟨5, 2, 3⟩) :=
  ⟨by decide, pipeline_counter_identity
    [⟨"t", "e1", "ts", "src", "p"⟩, ⟨"t", "e2", "ts", "src", "p"⟩,
     ⟨"t", "e1", "ts", "src", "p"⟩, ⟨"t", "e2", "ts", "src", "p"⟩,
     ⟨"t", "e1", "ts", "src", "p"⟩] 100 "now" (by decide)⟩

/-- C3 counterexample to the claim as stated: submit the same event twice
(R = 2) with the consumer draining in between.  The second submission is
rejected by the boundary's `is_duplicate` pre-check and never enqueued,
so after the queue fully drains the consumer reports `received = 1 ≠ 2`,
and the store's `/stats` counters report
`received = 1 ≠ 2 = unique_processed + duplicate_dropped`. -/
theorem pipeline_counters_interleaving_cex :
    (Consumer.stop 100 "now" (publish (consumeStep 100 "now"
        (publish pipelineInit ⟨"t", "e1", "ts", "src", "p"⟩))
        ⟨"t", "e1", "ts", "src", "p"⟩)).queue = [] ∧
    (Consumer.stop 100 "now" (publish (consumeStep 100 "now"
        (publish pipelineInit ⟨"t", "e1", "ts", "src", "p"⟩))
        ⟨"t", "e1", "ts", "src", "p"⟩)).stats.received = 1 ∧
    (Consumer.stop 100 "now" (publish (consumeStep 100 "now"
        (publish pipelineInit ⟨"t", "e1", "ts", "src", "p"⟩))
        ⟨"t", "e1", "ts", "src", "p"⟩)).stats.received ≠ 2 ∧
    (Consumer.stop 100 "now" (publish (consumeStep 100 "now"
        (publish pipelineInit ⟨"t", "e1", "ts", "src", "p"⟩))
        ⟨"t", "e1", "ts", "src", "p"⟩)).store.get_stats.received
      ≠ (Consumer.stop 100 "now" (publish (consumeStep 100 "now"
        (publish pipelineInit ⟨"t", "e1", "ts", "src", "p"⟩))
        ⟨"t", "e1", "ts", "src", "p"⟩)).store.get_stats.unique_processed
        + (Consumer.stop 100 "now" (publish (consumeStep 100 "now"
        (publish pipelineInit ⟨"t", "e1", "ts", "src", "p"⟩))
        ⟨"t", "e1", "ts", "src", "p"⟩)).store.get_stats.duplicate_dropped := by
  refine ⟨rfl, rfl, by decide, by decide⟩

/-- A queue operation never changes the configured capacity. -/
theorem queueStep_maxsize (q : IntakeQueue) (op : QueueOp) :
    (queueStep q op).maxsize = q.maxsize := by
  cases op with
  | put e =>
    by_cases h : q.full <;> simp [queueStep, IntakeQueue.put_attempt, h]
  | get =>
    cases hq : q.items <;> simp [queueStep, IntakeQueue.get_one, hq]

/-- A queue operation keeps the length within a positive capacity. -/
theorem queueStep_length_le (q : IntakeQueue) (op : QueueOp)
    (hmax : 0 < q.maxsize) (h : q.items.length ≤ q.maxsize) :
    (queueStep q op).items.length ≤ q.maxsize := by
  cases op with
  | put e =>
    by_cases hf : q.full
    · simpa [queueStep, IntakeQueue.put_attempt, hf] using h
    · have hlt : q.items.length < q.maxsize := by
        simp only [IntakeQueue.full, Bool.and_eq_true, decide_eq_true_eq,
          not_and, Bool.not_eq_true] at hf
        rcases Nat.lt_or_ge q.items.length q.maxsize with hlt | hge
        · exact hlt
        · exact absurd (by simpa [hmax] using hf) (by omega)
      simp [queueStep, IntakeQueue.put_attempt, hf]
      omega
  | get =>
    cases hq : q.items with
    | nil =>
      simp only [queueStep, IntakeQueue.get_one, hq]
      exact hq ▸ h
    | cons a l =>
      simp only [queueStep, IntakeQueue.get_one, hq]
      rw [hq] at h
      simp at h ⊢
      omega

/-- C9: the intake queue is bounded by the configured capacity.  At
capacity, `put` adds nothing (the producer is suspended); any sequence of
puts and gets keeps the length within capacity; and after one `get` frees
a slot on a full queue, the next `put` succeeds and simply appends — the
remaining contents are untouched. -/
theorem intake_queue_backpressure (q : IntakeQueue)
    (hmax : 0 < q.maxsize) (hle : q.items.length ≤ q.maxsize) :
    (q.items.length = q.maxsize → ∀ e, q.put_attempt e = .blocked) ∧
    (∀ ops, (queueRun q ops).items.length ≤ q.maxsize) ∧
    (∀ e head q2, q.items.length = q.maxsize → q.get_one = some (head, q2) →
      q2.put_attempt e = .queued { q2 with items := q2.items ++ [e] }) := by
  refine ⟨?_, ?_, ?_⟩
  · intro hfull e
    have : q.full = true := by
      simp [IntakeQueue.full, hmax, hfull]
    simp [IntakeQueue.put_attempt, this]
  · have haux : ∀ (ops : List QueueOp) (p : IntakeQueue), p.maxsize = q.maxsize →
        p.items.length ≤ q.maxsize → (queueRun p ops).items.length ≤ q.maxsize := by
      intro ops
      induction ops with
      | nil => intro p _ hp; exact hp
      | cons op rest ih =>
        intro p hpm hp
        have h1 : (queueStep p op).items.length ≤ q.maxsize := by
          have h2 := queueStep_length_le p op (by rw [hpm]; exact hmax)
            (by rw [hpm]; exact hp)
          rw [hpm] at h2
          exact h2
        have h3 : (queueStep p op).maxsize = q.maxsize := by
          rw [queueStep_maxsize, hpm]
        have h4 := ih (queueStep p op) h3 h1
        simpa [queueRun] using h4
    intro ops
    exact haux ops q rfl hle
  · intro e head q2 hfull hget
    cases hq : q.items with
    | nil => simp [IntakeQueue.get_one, hq] at hget
    | cons a l =>
      have hget2 : q.get_one = some (a, { q with items := l }) := by
        simp [IntakeQueue.get_one, hq]
      rw [hget2] at hget
      injection hget with h1
      injection h1 with ha hq2
      subst hq2
      have hlen : l.length + 1 = q.maxsize := by
        rw [hq] at hfull
        simpa using hfull
      have hnotfull : ({ q with items := l } : IntakeQueue).full = false := by
        simp [IntakeQueue.full]
        intro _
        omega
      simp [IntakeQueue.put_attempt, hnotfull]

/-- Concrete instance of `intake_queue_backpressure` at the configured
default capacity of 10,000. -/
theorem intake_queue_backpressure_witness :
    0 < (IntakeQueue.mk QUEUE_MAX_SIZE []).maxsize ∧
    (IntakeQueue.mk QUEUE_MAX_SIZE []).items.length
      ≤ (IntakeQueue.mk QUEUE_MAX_SIZE []).maxsize ∧
    (((IntakeQueue.mk QUEUE_MAX_SIZE []).items.length
        = (IntakeQueue.mk QUEUE_MAX_SIZE []).maxsize →
      ∀ e, (IntakeQueue.mk QUEUE_MAX_SIZE []).put_attempt e = .blocked) ∧
     (∀ ops, (queueRun (IntakeQueue.mk QUEUE_MAX_SIZE []) ops).items.length
        ≤ (IntakeQueue.mk QUEUE_MAX_SIZE []).maxsize) ∧
     (∀ e head q2,
        (IntakeQueue.mk QUEUE_MAX_SIZE []).items.length
          = (IntakeQueue.mk QUEUE_MAX_SIZE []).maxsize →
        (IntakeQueue.mk QUEUE_MAX_SIZE []).get_one = some (head, q2) →
        q2.put_attempt e = .queued { q2 with items := q2.items ++ [e] })) :=
  ⟨by decide, by decide,
    intake_queue_backpressure (IntakeQueue.mk QUEUE_MAX_SIZE [])
      (by decide) (by decide)⟩
theorem stats_fresh_instance_witness :
    ([⟨"t", "e1", "ts", "src", "p", "now"⟩] : List ProcessedEvent) ≠ [] ∧
    ((DedupStore.init [⟨"t", "e1", "ts", "src", "p", "now"⟩]).get_stats.received = 0 ∧
     (DedupStore.init [⟨"t", "e1", "ts", "src", "p", "now"⟩]).get_stats.duplicate_dropped = 0 ∧
     (DedupStore.init [⟨"t", "e1", "ts", "src", "p", "now"⟩]).get_stats.unique_processed = 1 ∧
     (DedupStore.init [⟨"t", "e1", "ts", "src", "p", "now"⟩]).get_stats.received
       < (DedupStore.init [⟨"t", "e1", "ts", "src", "p", "now"⟩]).get_stats.unique_processed) :=
  ⟨by decide, stats_fresh_instance_on_persisted [⟨"t", "e1", "ts", "src", "p", "now"⟩]
    (by decide)⟩
